import Mathlib

/-!
# boyane126/go-common: configuration store, query-logging adapter, helpers

A shallow embedding of the Go packages `helpers`, `config` and `logger`.

* Go strings are Lean `String`s; `strings.HasSuffix` and `strings.Contains` are evaluated on
  the character lists.
* `time.Time` and `time.Duration` are integers counting nanoseconds (a `Duration` is an
  `int64`, `time.Time.Sub` saturates at its bounds).
* Code that writes log records is embedded as a function returning the list of records it
  hands to the zap logger, in program order. A record counts as emitted when the zap method
  is called; whether the level configured for the core lets it through is decided inside zap.
* Libraries outside the repository (zap, gorm, viper, cast, the Go runtime) appear only through
  the operations the repository calls; each such operation is described where it is defined.
-/

namespace GoCommon

/-! ## Package `strings` (standard library) -/

namespace strings

/-- `strings.HasSuffix(s, suffix)`. -/
def HasSuffix (s suffix : String) : Bool :=
  suffix.data.isSuffixOf s.data

/-- Substring search on character lists: does `sub` start at some position of `s`? -/
def containsChars : List Char → List Char → Bool
  | [], sub => sub.isEmpty
  | c :: cs, sub => sub.isPrefixOf (c :: cs) || containsChars cs sub

/-- `strings.Contains(s, substr)`. -/
def Contains (s substr : String) : Bool :=
  containsChars s.data substr.data

end strings

/-! ## Package `helpers`: `MicrosecondsStr` -/

namespace helpers

/-- `MicrosecondsStr(elapsed)` is `fmt.Sprintf("%.3fms", float64(elapsed.Nanoseconds())/1e6)`.
The float64 division and its three-decimal rendering are supplied as `sprintf3`
(nanoseconds to the rendered number); the unit suffix is added here. -/
def MicrosecondsStr (sprintf3 : Int → String) (elapsed : Int) : String :=
  sprintf3 elapsed ++ "ms"

end helpers

/-! ## Package `crypto/md5` (standard library): the MD5 digest of RFC 1321 -/

namespace md5

/-- Per-round left-rotation amounts. -/
def shifts : List Nat :=
  [7, 12, 17, 22, 7, 12, 17, 22, 7, 12, 17, 22, 7, 12, 17, 22,
   5, 9, 14, 20, 5, 9, 14, 20, 5, 9, 14, 20, 5, 9, 14, 20,
   4, 11, 16, 23, 4, 11, 16, 23, 4, 11, 16, 23, 4, 11, 16, 23,
   6, 10, 15, 21, 6, 10, 15, 21, 6, 10, 15, 21, 6, 10, 15, 21]

/-- The sine-derived round constants. -/
def sines : List Nat :=
  [
   0xd76aa478, 0xe8c7b756, 0x242070db, 0xc1bdceee,
   0xf57c0faf, 0x4787c62a, 0xa8304613, 0xfd469501,
   0x698098d8, 0x8b44f7af, 0xffff5bb1, 0x895cd7be,
   0x6b901122, 0xfd987193, 0xa679438e, 0x49b40821,
   0xf61e2562, 0xc040b340, 0x265e5a51, 0xe9b6c7aa,
   0xd62f105d, 0x02441453, 0xd8a1e681, 0xe7d3fbc8,
   0x21e1cde6, 0xc33707d6, 0xf4d50d87, 0x455a14ed,
   0xa9e3e905, 0xfcefa3f8, 0x676f02d9, 0x8d2a4c8a,
   0xfffa3942, 0x8771f681, 0x6d9d6122, 0xfde5380c,
   0xa4beea44, 0x4bdecfa9, 0xf6bb4b60, 0xbebfbc70,
   0x289b7ec6, 0xeaa127fa, 0xd4ef3085, 0x04881d05,
   0xd9d4d039, 0xe6db99e5, 0x1fa27cf8, 0xc4ac5665,
   0xf4292244, 0x432aff97, 0xab9423a7, 0xfc93a039,
   0x655b59c3, 0x8f0ccc92, 0xffeff47d, 0x85845dd1,
   0x6fa87e4f, 0xfe2ce6e0, 0xa3014314, 0x4e0811a1,
   0xf7537e82, 0xbd3af235, 0x2ad7d2bb, 0xeb86d391]

/-- Rotate a 32-bit word left by `c` bits. -/
def rotl32 (x c : Nat) : Nat :=
  ((x <<< c) ||| (x >>> (32 - c))) % 2 ^ 32

/-- Bitwise complement of a 32-bit word. -/
def not32 (x : Nat) : Nat :=
  x ^^^ 0xffffffff

/-- The `n` low bytes of `x`, least significant first. -/
def littleEndianBytes : Nat → Nat → List Nat
  | 0, _ => []
  | n + 1, x => x % 256 :: littleEndianBytes n (x / 256)

/-- A little-endian word from its bytes. -/
def littleEndianWord : List Nat → Nat
  | [] => 0
  | b :: bs => b % 256 + 256 * littleEndianWord bs

/-- Message padding: a one bit, zeros up to 56 mod 64, then the bit length in 64 bits. -/
def pad (msg : List Nat) : List Nat :=
  msg ++ [0x80] ++ List.replicate ((55 + 64 - msg.length % 64) % 64) 0 ++
    littleEndianBytes 8 ((8 * msg.length) % 2 ^ 64)

/-- Cut a list into pieces of `n` elements (`fuel` bounds the number of pieces). -/
def chunksOf (n : Nat) : Nat → List Nat → List (List Nat)
  | 0, _ => []
  | fuel + 1, xs => if xs.isEmpty then [] else xs.take n :: chunksOf n fuel (xs.drop n)

/-- The working registers of a block. -/
structure Regs where
  a : Nat
  b : Nat
  c : Nat
  d : Nat
deriving DecidableEq, Repr

/-- One of the 64 operations on a block with message words `m`. -/
def step (m : List Nat) (r : Regs) (i : Nat) : Regs :=
  let f :=
    if i < 16 then (r.b &&& r.c) ||| (not32 r.b &&& r.d)
    else if i < 32 then (r.d &&& r.b) ||| (not32 r.d &&& r.c)
    else if i < 48 then r.b ^^^ r.c ^^^ r.d
    else r.c ^^^ (r.b ||| not32 r.d)
  let g :=
    if i < 16 then i
    else if i < 32 then (5 * i + 1) % 16
    else if i < 48 then (3 * i + 5) % 16
    else (7 * i) % 16
  let sum := (f + r.a + sines.getD i 0 + m.getD g 0) % 2 ^ 32
  { a := r.d, d := r.c, c := r.b, b := (r.b + rotl32 sum (shifts.getD i 0)) % 2 ^ 32 }

/-- Process one 64-byte block. -/
def block (h : Regs) (bytes : List Nat) : Regs :=
  let m := (chunksOf 4 16 bytes).map littleEndianWord
  let r := (List.range 64).foldl (step m) h
  { a := (h.a + r.a) % 2 ^ 32, b := (h.b + r.b) % 2 ^ 32,
    c := (h.c + r.c) % 2 ^ 32, d := (h.d + r.d) % 2 ^ 32 }

/-- `md5.Sum(data)`: the sixteen digest bytes. -/
def Sum (data : List Nat) : List Nat :=
  let h := (chunksOf 64 (data.length / 64 + 2) (pad data)).foldl block
    ⟨0x67452301, 0xefcdab89, 0x98badcfe, 0x10325476⟩
  littleEndianBytes 4 h.a ++ littleEndianBytes 4 h.b ++ littleEndianBytes 4 h.c ++
    littleEndianBytes 4 h.d

end md5

/-- `[]byte(s)`: the UTF-8 bytes of a string. -/
def stringBytes (s : String) : List Nat :=
  (s.data.flatMap String.utf8EncodeChar).map UInt8.toNat

/-- `binary.BigEndian.Uint32(b)` for a slice of four bytes. -/
def bigEndianUint32 (b : List Nat) : Nat :=
  ((b.getD 0 0) % 256) * 2 ^ 24 + ((b.getD 1 0) % 256) * 2 ^ 16 + ((b.getD 2 0) % 256) * 2 ^ 8 +
    (b.getD 3 0) % 256

namespace helpers

/-- `HashString`. -/
def HashString (input : String) : Int :=
  if input = "" then 0
  else
    let hash := md5.Sum (stringBytes input)
    let value := bigEndianUint32 (hash.take 4)
    Int.ofNat (value % 100)

end helpers

/-! ## Package `logger` -/

namespace logger

/-- Severities of `zapcore.Level` that the adapter uses. -/
inductive Level where
  | debug
  | info
  | warn
  | error
deriving DecidableEq, Repr

/-- Go `error` values, as far as `errors.Is` can tell them apart: the sentinel
`gorm.ErrRecordNotFound`, any other leaf error, and an error wrapping another one
(`fmt.Errorf("...: %w", inner)`). A nil `error` is `none : Option GoError`. -/
inductive GoError where
  | recordNotFound
  | leaf (msg : String)
  | wrapped (msg : String) (inner : GoError)
deriving DecidableEq, Repr

/-- `errors.Is(err, target)` for a non-nil `err`: compare, then follow `Unwrap`. -/
def errorsIs : GoError → GoError → Bool
  | .wrapped msg inner, target =>
      decide (GoError.wrapped msg inner = target) || errorsIs inner target
  | err, target => decide (err = target)

/-- The payload of a `zap.Field`. -/
inductive FieldValue where
  | str (s : String)
  | int64 (i : Int)
  | err (e : GoError)
deriving DecidableEq, Repr

/-- A `zap.Field`: key and payload. -/
structure Field where
  key : String
  value : FieldValue
deriving DecidableEq, Repr

/-- `zap.String(key, val)`. -/
def zapString (key val : String) : Field := ⟨key, .str val⟩

/-- `zap.Int64(key, val)`. -/
def zapInt64 (key : String) (val : Int) : Field := ⟨key, .int64 val⟩

/-- `zap.Error(err)` for a non-nil `err`: the field named "error". -/
def zapError (err : GoError) : Field := ⟨"error", .err err⟩

/-- A `*zap.Logger` that is not nil: its core (encoder, sink and level, identified by a
number) and the number of caller frames it skips when it attributes a record. -/
structure ZapLogger where
  core : Nat
  callerSkip : Int
deriving DecidableEq, Repr

/-- `log.WithOptions(zap.AddCallerSkip(skip))`: a clone whose caller skip is increased. -/
def ZapLogger.WithCallerSkip (log : ZapLogger) (skip : Int) : ZapLogger :=
  { log with callerSkip := log.callerSkip + skip }

/-- `InitLogger`: the global `Logger` is `zap.New(core, AddCaller(), AddCallerSkip(1), ...)`.
A fresh zap logger skips no frame, so the global logger skips one. -/
def InitLogger (core : Nat) : ZapLogger :=
  (ZapLogger.mk core 0).WithCallerSkip 1

/-- The frame zap reports for a record written through `log` by a method of the adapter.
Depths are those of `runtime.Caller` as called inside `GormLogger.logger`: 0 is `logger`,
1 is the adapter method (`Trace`, `Info`, ...) that calls both `logger` and the zap method,
2 is the caller of the adapter method. With no skip zap reports the function that called the
zap method; every skipped frame moves the report one frame up. -/
def callerDepth (log : ZapLogger) : Int :=
  1 + log.callerSkip

/-- One record handed to zap: the logger it is written through, severity, message, fields. -/
structure Record where
  via : ZapLogger
  level : Level
  message : String
  fields : List Field
deriving DecidableEq, Repr

/-- `GormLogger`: the adapter. `SlowThreshold` is a `time.Duration` in nanoseconds. -/
structure GormLogger where
  ZapLogger : ZapLogger
  SlowThreshold : Int
deriving DecidableEq, Repr

/-- The call stack as `runtime.Caller` shows it from inside `GormLogger.logger`: the source
file of the frame at each depth, `none` when `runtime.Caller` reports `ok == false`. -/
abbrev Stack := Nat → Option String

/-- `filepath.Join(a, b)` for two clean, non-empty elements, with the separator `/`. -/
def filepathJoin (a b : String) : String :=
  a ++ "/" ++ b

/-- `gormPackage` of `GormLogger.logger`. -/
def gormPackage : String := filepathJoin "gorm.io" "gorm"

/-- `zapgormPackage` of `GormLogger.logger` (spelled as in the source). -/
def zapgormPackage : String := filepathJoin "moul.io" "zapgrom2"

/-- The first four cases of the `switch` in `GormLogger.logger`: the frame is passed over
when its location is not resolvable, when its file ends in `_test.go`, or when its file
contains one of the two package paths. -/
def frameSkipped : Option String → Bool
  | none => true
  | some file =>
      strings.HasSuffix file "_test.go" ||
      strings.Contains file gormPackage ||
      strings.Contains file zapgormPackage

/-- The loop `for i := 2; i < 15; i++` of `GormLogger.logger`, started at depth `i` with
`fuel` iterations left. Returns the depths handed to `runtime.Caller`, in order, and the
depth at which the `default` case returned, if it did. -/
def scanFrom (stack : Stack) : Nat → Nat → List Nat × Option Nat
  | 0, _ => ([], none)
  | fuel + 1, i =>
      if frameSkipped (stack i) then
        ((i :: (scanFrom stack fuel (i + 1)).1), (scanFrom stack fuel (i + 1)).2)
      else
        ([i], some i)

/-- The depths `GormLogger.logger` hands to `runtime.Caller`. -/
def GormLogger.probedDepths (_l : GormLogger) (stack : Stack) : List Nat :=
  (scanFrom stack (15 - 2) 2).1

/-- `GormLogger.logger`. -/
def GormLogger.logger (l : GormLogger) (stack : Stack) : logger.ZapLogger :=
  let clone := l.ZapLogger.WithCallerSkip (-2)
  match (scanFrom stack (15 - 2) 2).2 with
  | some i => clone.WithCallerSkip (Int.ofNat i)
  | none => l.ZapLogger

/-- `NewGormLogger`, given the global `Logger`: threshold 200 ms. -/
def NewGormLogger (Logger : ZapLogger) : GormLogger :=
  { ZapLogger := Logger, SlowThreshold := 200 * 1000000 }

/-- `GormLogger.LogMode`: the level is ignored, both fields are copied. -/
def GormLogger.LogMode (l : GormLogger) (_level : Int) : GormLogger :=
  { ZapLogger := l.ZapLogger, SlowThreshold := l.SlowThreshold }

/-- `NewGormLoggerWithConfig`. -/
def NewGormLoggerWithConfig (Logger : ZapLogger) (level : Int) (slowThreshold : Int) :
    GormLogger :=
  (GormLogger.mk Logger slowThreshold).LogMode level

/-- The message a sugared `Debugf/Warnf/Errorf(template, args...)` writes: the template
itself without arguments, otherwise the text package `fmt` formats from the template and the
arguments, supplied as `sprintf`. -/
def sugarMessage {α : Type} (sprintf : String → List α → String) (template : String)
    (args : List α) : String :=
  if args.isEmpty then template else sprintf template args

/-- `GormLogger.Info`: `l.logger().Sugar().Debugf(str, args...)`. -/
def GormLogger.Info {α : Type} (sprintf : String → List α → String) (l : GormLogger)
    (stack : Stack) (str : String) (args : List α) : List Record :=
  [⟨l.logger stack, .debug, sugarMessage sprintf str args, []⟩]

/-- `GormLogger.Warn`: `l.logger().Sugar().Warnf(str, args...)`. -/
def GormLogger.Warn {α : Type} (sprintf : String → List α → String) (l : GormLogger)
    (stack : Stack) (str : String) (args : List α) : List Record :=
  [⟨l.logger stack, .warn, sugarMessage sprintf str args, []⟩]

/-- `GormLogger.Error`: `l.logger().Sugar().Errorf(str, args...)`. -/
def GormLogger.Error {α : Type} (sprintf : String → List α → String) (l : GormLogger)
    (stack : Stack) (str : String) (args : List α) : List Record :=
  [⟨l.logger stack, .error, sugarMessage sprintf str args, []⟩]

/-- Smallest and largest `time.Duration`. -/
def minDuration : Int := -(2 ^ 63)

/-- Largest `time.Duration`. -/
def maxDuration : Int := 2 ^ 63 - 1

/-- `time.Since(begin)` at the instant `now`: the difference, saturated to a `Duration`. -/
def timeSince (now begin : Int) : Int :=
  if now - begin < minDuration then minDuration
  else if maxDuration < now - begin then maxDuration
  else now - begin

/-- `GormLogger.Trace`. `now` is the clock reading of `time.Since`, `fc` the result function
(statement text and affected rows), `err` the operation error (`none` is nil). -/
def GormLogger.Trace (sprintf3 : Int → String) (l : GormLogger) (stack : Stack)
    (now begin : Int) (fc : Unit → String × Int) (err : Option GoError) : List Record :=
  let elapsed := timeSince now begin
  let sql := (fc ()).1
  let rows := (fc ()).2
  let logFields : List Field :=
    [zapString "sql" sql, zapString "time" (helpers.MicrosecondsStr sprintf3 elapsed),
     zapInt64 "rows" rows]
  let outcome : List Record × List Field :=
    match err with
    | none => ([], logFields)
    | some e =>
        if errorsIs e GoError.recordNotFound then
          ([⟨l.logger stack, .warn, "Database ErrRecordNotFound", logFields⟩], logFields)
        else
          ([⟨l.logger stack, .error, "Database Error", logFields ++ [zapError e]⟩],
           logFields ++ [zapError e])
  let slow : List Record :=
    if l.SlowThreshold ≠ 0 ∧ elapsed > l.SlowThreshold then
      [⟨l.logger stack, .warn, "Database Slow Log", outcome.2⟩]
    else []
  outcome.1 ++ slow

/-- Number of records of a given severity. -/
def countLevel (lvl : Level) (rs : List Record) : Nat :=
  (rs.filter (fun r => decide (r.level = lvl))).length

/-- A call stack used as an example: two frames of the database library above the adapter,
then a frame of the application. -/
def exampleStack : Stack := fun d =>
  if d = 2 then some "/go/pkg/mod/gorm.io/gorm@v1.25.5/callbacks.go"
  else if d = 3 then some "/go/pkg/mod/gorm.io/gorm@v1.25.5/finisher_api.go"
  else if d = 4 then some "/srv/app/models/user.go"
  else none

/-- A call stack with no resolvable frame at all. -/
def emptyStack : Stack := fun _ => none

end logger

/-! ## Dynamic values (`interface{}`) and `helpers.Empty` -/

/-- A Go value held in an `interface{}`. The constructors stand for values of the
predeclared types that `helpers.Empty`, the store and `cast.ToString` tell apart: `nil` is the
nil interface; `str` a `string`; `bool` a `bool`; `int` and `uint` a signed or unsigned
integer of any width; `float` a float, held as its IEEE-754 binary64 bit pattern; `map` a
non-nil `map[string]interface{}` as an association list (the first entry of a key counts),
`nilMap` the nil map; `slice` a non-nil `[]interface{}`, `nilSlice` the nil one; `array` an
array of `interface{}`; `ptr` a pointer, recording whether it is nil; `other` a value of the
remaining kinds (struct, chan, func, complex), recording whether it is `reflect.DeepEqual`
to the zero value of its type. Values of defined (named) types and maps or slices of other
element types are not represented. -/
inductive Value where
  | nil
  | str (s : String)
  | bool (b : Bool)
  | int (i : Int)
  | uint (n : Nat)
  | float (bits : Nat)
  | array (elems : List Value)
  | nilSlice
  | slice (elems : List Value)
  | nilMap
  | map (entries : List (String × Value))
  | ptr (isNil : Bool)
  | other (deepEqualZero : Bool)

/-- `val == nil` for an `interface{}`. -/
def Value.isNil : Value → Bool
  | .nil => true
  | _ => false

namespace helpers

/-- `Empty`. The kind switch of the source, case by case; `v.Len()` of a string is its
byte length, of a nil map or nil slice it is 0, and a float equals 0 exactly when all bits
but the sign bit are clear. -/
def Empty : Value → Bool
  | .nil => true
  | .str s => s.utf8ByteSize == 0
  | .array elems => elems.length == 0
  | .map entries => entries.length == 0
  | .nilMap => true
  | .slice elems => elems.length == 0
  | .nilSlice => true
  | .bool b => !b
  | .int i => i == 0
  | .uint n => n == 0
  | .float bits => bits % 2 ^ 63 == 0
  | .ptr isNil => isNil
  | .other deepEqualZero => deepEqualZero

end helpers

/-! ## Package `cast` (github.com/spf13/cast)

Each conversion returns the zero value of its target type for `nil`. `ToString` returns a
`string` unchanged, renders booleans and integers in decimal, and fails on maps, slices and
arrays of `interface{}`, for which it returns the empty string. Every other conversion is
made outside the repository (number parsing, `strconv.FormatFloat`, pointer indirection,
`fmt.Stringer`) and is supplied as the argument `ext`. -/

namespace cast

/-- `cast.ToString`. -/
def ToString (ext : Value → String) : Value → String
  | .nil => ""
  | .str s => s
  | .bool b => if b then "true" else "false"
  | .int i => toString i
  | .uint n => toString n
  | .map _ => ""
  | .nilMap => ""
  | .slice _ => ""
  | .nilSlice => ""
  | .array _ => ""
  | v => ext v

/-- `cast.ToInt`. -/
def ToInt (ext : Value → Int) : Value → Int
  | .nil => 0
  | v => ext v

/-- `cast.ToInt64`. -/
def ToInt64 (ext : Value → Int) : Value → Int
  | .nil => 0
  | v => ext v

/-- `cast.ToUint`. -/
def ToUint (ext : Value → Nat) : Value → Nat
  | .nil => 0
  | v => ext v

/-- `cast.ToFloat64`, as a binary64 bit pattern (0 is +0.0). -/
def ToFloat64 (ext : Value → Nat) : Value → Nat
  | .nil => 0
  | v => ext v

/-- `cast.ToBool`. -/
def ToBool (ext : Value → Bool) : Value → Bool
  | .nil => false
  | .bool b => b
  | v => ext v

end cast

/-! ## Package `viper` (github.com/spf13/viper): the store behind package `config`

The store answers a lookup from its registers in order of precedence. The override
register, written by `Set`, comes first and is a tree of maps addressed by the key split at
the delimiter `.`; keys are compared in lower case. The registers below it (automatic
environment variables under the prefix `APPENV_`, the configuration file) are read-only for
package `config` apart from `ReadInConfig` and are represented by the lookup they answer.

Lower case is that of Go: `strings.ToLower` maps every rune of a string with
`unicode.ToLower`. The rune mapping is a table of the Go runtime; it is the argument
`toLower` of every definition that folds a key. -/

namespace viperlib

/-- `strings.ToLower(s)`: every rune mapped by `unicode.ToLower`, supplied as `toLower`. -/
def lowerKey (toLower : Char → Char) (s : String) : String :=
  String.mk (s.data.map toLower)

/-- The rune mapping `unicode.ToLower` on ASCII: `A` to `Z` go to `a` to `z`, every other
ASCII character stays. It serves in the examples, whose keys are ASCII. -/
def asciiToLower : Char → Char := Char.toLower

/-- Split a character list at every `.`; the result is never empty. -/
def splitDot : List Char → List (List Char)
  | [] => [[]]
  | c :: cs =>
      if c = '.' then [] :: splitDot cs
      else
        match splitDot cs with
        | [] => [[c]]
        | w :: ws => (c :: w) :: ws

/-- `strings.Split(key, v.keyDelim)` with the delimiter `.`. -/
def splitKey (key : String) : List String :=
  (splitDot key.data).map String.mk

/-- `strings.Join(path, v.keyDelim)`. -/
def joinKey (path : List String) : String :=
  String.intercalate "." path

/-- `m[k]` on a `map[string]interface{}`: the entry, if present. -/
def mapGet (k : String) : List (String × Value) → Option Value
  | [] => none
  | (k1, v1) :: rest => if k1 = k then some v1 else mapGet k rest

/-- `m[k] = v` on a `map[string]interface{}`. -/
def mapSet (k : String) (v : Value) : List (String × Value) → List (String × Value)
  | [] => [(k, v)]
  | (k1, v1) :: rest => if k1 = k then (k, v) :: rest else (k1, v1) :: mapSet k v rest

mutual
/-- The loop of `copyAndInsensitiviseMap`: `nm[strings.ToLower(key)] = val` for the entries
of the map in the order in which `range` visits them, which is the order of the list (Go
leaves the iteration order of a map unspecified); `nm` is the copy built so far. -/
def copyEntriesInto (toLower : Char → Char) :
    List (String × Value) → List (String × Value) → List (String × Value)
  | [], nm => nm
  | (k, v) :: rest, nm =>
      copyEntriesInto toLower rest
        (mapSet (lowerKey toLower k) (insensitiviseNested toLower v) nm)
/-- The value stored under a key by `copyAndInsensitiviseMap`: maps are copied, other
values are kept. -/
def insensitiviseNested (toLower : Char → Char) : Value → Value
  | .map entries => .map (copyEntriesInto toLower entries [])
  | .nilMap => .map []
  | v => v
end

/-- `copyAndInsensitiviseMap`: a copy of the map with lower-case keys, nested maps
included, built from the empty map. -/
def copyAndInsensitiviseMap (toLower : Char → Char) (entries : List (String × Value)) :
    List (String × Value) :=
  copyEntriesInto toLower entries []

/-- `toCaseInsensitiveValue`: what `Set` stores for a value. -/
def toCaseInsensitiveValue (toLower : Char → Char) : Value → Value
  | .map entries => .map (copyAndInsensitiviseMap toLower entries)
  | .nilMap => .map []
  | v => v

/-- `searchMap(source, path)`: follow `path` through nested maps; `nil` when a key is
missing or a value that is not a map is in the way. -/
def searchMap : List (String × Value) → List String → Value
  | source, [] => .map source
  | source, k :: rest =>
      match mapGet k source with
      | none => .nil
      | some next =>
          if rest.isEmpty then next
          else
            match next with
            | .map sub => searchMap sub rest
            | _ => .nil

/-- `deepSearch(m, parents)` followed by `deepestMap[lastKey] = value`: intermediate keys
that are missing or hold a value that is not a map get a fresh map. -/
def deepSet : List (String × Value) → List String → String → Value → List (String × Value)
  | m, [], lastKey, value => mapSet lastKey value m
  | m, k :: rest, lastKey, value =>
      mapSet k
        (.map (deepSet
          (match mapGet k m with
           | some (.map sub) => sub
           | _ => [])
          rest lastKey value))
        m

/-- The loop of `isPathShadowedInDeepMap(path, m)` from index `i` on, with `fuel` indices
left: the joined parent path at which a value that is not a map lies, else the empty
string. -/
def shadowedFrom (m : List (String × Value)) (path : List String) : Nat → Nat → String
  | 0, _ => ""
  | fuel + 1, i =>
      match searchMap m (path.take i) with
      | .nil => ""
      | .map _ => shadowedFrom m path fuel (i + 1)
      | .nilMap => shadowedFrom m path fuel (i + 1)
      | _ => joinKey (path.take i)

/-- `isPathShadowedInDeepMap(path, m)`: `for i := 1; i < len(path); i++`. -/
def isPathShadowedInDeepMap (path : List String) (m : List (String × Value)) : String :=
  shadowedFrom m path (path.length - 1) 1

/-- The store. `override` is the register written by `Set`; `below` is the answer of the
registers under it for a lower-case key (`nil` when none has the key); `configName` is the
name set by `SetConfigName`; `watching` tells whether `WatchConfig` has been called. -/
structure Viper where
  override : List (String × Value)
  below : String → Value
  configName : String
  watching : Bool

/-- `viper.New()` as configured by `init()` of package `config`, in a process whose
environment answers `environ` for a lower-case key. -/
def New (environ : String → Value) : Viper :=
  { override := [], below := environ, configName := "config", watching := false }

/-- `v.find(lcaseKey, _)`: no alias and no flag is registered by package `config`. -/
def Viper.find (v : Viper) (lcaseKey : String) : Value :=
  let path := splitKey lcaseKey
  let nested := decide (path.length > 1)
  let val := searchMap v.override path
  if !val.isNil then val
  else if nested && isPathShadowedInDeepMap path v.override != "" then .nil
  else v.below lcaseKey

/-- `v.IsSet(key)`. -/
def Viper.IsSet (toLower : Char → Char) (v : Viper) (key : String) : Bool :=
  !(v.find (lowerKey toLower key)).isNil

/-- `v.Get(key)`. -/
def Viper.Get (toLower : Char → Char) (v : Viper) (key : String) : Value :=
  v.find (lowerKey toLower key)

/-- `v.Set(key, value)`. -/
def Viper.Set (toLower : Char → Char) (v : Viper) (key : String) (value : Value) : Viper :=
  let key := lowerKey toLower key
  let value := toCaseInsensitiveValue toLower value
  let path := splitKey key
  let lastKey := lowerKey toLower (path.getLastD "")
  { v with override := deepSet v.override path.dropLast lastKey value }

/-- `v.SetConfigName(name)`. -/
def Viper.SetConfigName (v : Viper) (name : String) : Viper :=
  { v with configName := name }

/-- The three outcomes of `os.Stat` that `loadEnv` tells apart. -/
inductive StatResult where
  | found
  | notExist
  | otherError
deriving DecidableEq, Repr

/-- The file system as package `config` uses it: `stat` is `os.Stat`; `readConfig name` is
the outcome of reading the configuration file found for the configuration name `name`,
either an error or the answer of the registers below the override register once the file
is loaded. -/
structure FileSystem where
  stat : String → StatResult
  readConfig : String → Except String (String → Value)

/-- `v.ReadInConfig()`: read the file found for the current configuration name. -/
def Viper.ReadInConfig (fs : FileSystem) (v : Viper) : Except String Viper :=
  match fs.readConfig v.configName with
  | Except.error err => Except.error err
  | Except.ok loaded => Except.ok { v with below := loaded }

/-- `v.WatchConfig()`: from now on a change of the file replaces the registers below the
override register. -/
def Viper.WatchConfig (v : Viper) : Viper :=
  { v with watching := true }

/-- `v.WriteConfig()`: writes the settings to the configuration file. The registers that
`find` reads are not touched by the call itself. -/
def Viper.WriteConfig (v : Viper) : Viper := v

/-- A reload of the file by the watcher: the registers below the override register answer
`reloaded` from now on. -/
def Viper.fileChanged (v : Viper) (reloaded : String → Value) : Viper :=
  { v with below := reloaded }

end viperlib

/-! ## Package `config` -/

namespace config

open viperlib

/-- `ConfigFunc`: a registered section. It may read the store; its result is the list of
entries of the map it returns (a nil map has no entries). -/
abbrev ConfigFunc := Viper → List (String × Value)

/-- `Add(name, configFn)`: `ConfigFuncs[name] = configFn`. -/
def Add (ConfigFuncs : List (String × ConfigFunc)) (name : String) (configFn : ConfigFunc) :
    List (String × ConfigFunc) :=
  match ConfigFuncs with
  | [] => [(name, configFn)]
  | (n, f) :: rest => if n = name then (name, configFn) :: rest else (n, f) :: Add rest name configFn

/-- `loadEnv(env)`; `Except.error` is the panic on a file that cannot be read. -/
def loadEnv (fs : FileSystem) (env : String) (viper : Viper) : Except String Viper :=
  let envPath :=
    if env.utf8ByteSize > 0 then
      if fs.stat (".env." ++ env) = StatResult.found then ".env." ++ env else ".env"
    else ".env"
  if fs.stat envPath = StatResult.notExist then
    Except.ok viper
  else
    match (viper.SetConfigName envPath).ReadInConfig fs with
    | Except.error err => Except.error err
    | Except.ok loaded => Except.ok loaded.WatchConfig

/-- `loadConfig()`: `visited` lists `ConfigFuncs` in the order in which `range` visits it
(Go leaves the iteration order of a map unspecified). -/
def loadConfig (toLower : Char → Char) (visited : List (String × ConfigFunc))
    (viper : Viper) : Viper :=
  visited.foldl (fun v entry => v.Set toLower entry.1 (Value.map (entry.2 v))) viper

/-- `InitConfig(env)`. -/
def InitConfig (toLower : Char → Char) (fs : FileSystem)
    (visited : List (String × ConfigFunc)) (env : String) (viper : Viper) :
    Except String Viper :=
  match loadEnv fs env viper with
  | Except.error err => Except.error err
  | Except.ok loaded => Except.ok (loadConfig toLower visited loaded)

/-- `internalGet(path, defaultVal...)`. -/
def internalGet (toLower : Char → Char) (viper : Viper) (path : String)
    (defaultVal : List Value) : Value :=
  if !viper.IsSet toLower path || helpers.Empty (viper.Get toLower path) then
    match defaultVal with
    | d :: _ => d
    | [] => Value.nil
  else viper.Get toLower path

/-- `Env(envName, defaultVal...)`. -/
def Env (toLower : Char → Char) (viper : Viper) (envName : String)
    (defaultVal : List Value) : Value :=
  match defaultVal with
  | d :: _ => internalGet toLower viper envName [d]
  | [] => internalGet toLower viper envName []

/-- `GetString(path, defaultVal...)`. -/
def GetString (toLower : Char → Char) (ext : Value → String) (viper : Viper)
    (path : String) (defaultVal : List Value) : String :=
  cast.ToString ext (internalGet toLower viper path defaultVal)

/-- `Get(path, defaultVal...)`. -/
def Get (toLower : Char → Char) (ext : Value → String) (viper : Viper) (path : String)
    (defaultVal : List Value) : String :=
  GetString toLower ext viper path defaultVal

/-- `GetInt(path, defaultValue...)`. -/
def GetInt (toLower : Char → Char) (ext : Value → Int) (viper : Viper) (path : String)
    (defaultValue : List Value) : Int :=
  cast.ToInt ext (internalGet toLower viper path defaultValue)

/-- `GetFloat64(path, defaultValue...)`. -/
def GetFloat64 (toLower : Char → Char) (ext : Value → Nat) (viper : Viper) (path : String)
    (defaultValue : List Value) : Nat :=
  cast.ToFloat64 ext (internalGet toLower viper path defaultValue)

/-- `GetInt64(path, defaultValue...)`. -/
def GetInt64 (toLower : Char → Char) (ext : Value → Int) (viper : Viper) (path : String)
    (defaultValue : List Value) : Int :=
  cast.ToInt64 ext (internalGet toLower viper path defaultValue)

/-- `GetUint(path, defaultValue...)`. -/
def GetUint (toLower : Char → Char) (ext : Value → Nat) (viper : Viper) (path : String)
    (defaultValue : List Value) : Nat :=
  cast.ToUint ext (internalGet toLower viper path defaultValue)

/-- `GetBool(path, defaultValue...)`. -/
def GetBool (toLower : Char → Char) (ext : Value → Bool) (viper : Viper) (path : String)
    (defaultValue : List Value) : Bool :=
  cast.ToBool ext (internalGet toLower viper path defaultValue)

/-- `GetStringMapString(path)`: `viper.GetStringMapString(path)`, the conversion
`cast.ToStringMapString` supplied as `ext`. -/
def GetStringMapString (toLower : Char → Char) (ext : Value → List (String × String))
    (viper : Viper) (path : String) : List (String × String) :=
  ext (viper.Get toLower path)

/-- `UpdateConfig(path, value)`. -/
def UpdateConfig (toLower : Char → Char) (viper : Viper) (path : String) (value : Value) :
    Viper :=
  (viper.Set toLower path value).WriteConfig

/-- A process environment without `APPENV_` variables: the registers below the override
register answer nil. -/
def noEnviron : String → Value := fun _ => Value.nil

/-- A file system without any `.env` file. -/
def noFiles : FileSystem :=
  { stat := fun _ => StatResult.notExist,
    readConfig := fun _ => Except.error "Config File Not Found" }

/-- A file system whose `.env` file sets `APP=from-file` and `PORT=8080`. -/
def envFile : FileSystem :=
  { stat := fun p => if p = ".env" then StatResult.found else StatResult.notExist,
    readConfig := fun _ => Except.ok (fun k =>
      if k = "app" then Value.str "from-file"
      else if k = "port" then Value.str "8080"
      else Value.nil) }

/-- A section that returns `{"name": "one"}`. -/
def sectionOne : ConfigFunc := fun _ => [("name", Value.str "one")]

/-- A section that returns `{"name": "two"}`. -/
def sectionTwo : ConfigFunc := fun _ => [("name", Value.str "two")]

/-- A section that returns `{"Driver": "mysql"}`. -/
def sectionDatabase : ConfigFunc := fun _ => [("Driver", Value.str "mysql")]

/-- A section that returns `{"level": "debug"}`. -/
def sectionLog : ConfigFunc := fun _ => [("level", Value.str "debug")]

/-- The store `loadEnv` leaves over `envFile` in a process without `APPENV_` variables. -/
def loadedFromFile : Viper :=
  { override := [],
    below := fun k =>
      if k = "app" then Value.str "from-file"
      else if k = "port" then Value.str "8080"
      else Value.nil,
    configName := ".env", watching := true }

end config


end GoCommon

/-! # Theorems -/

set_option maxRecDepth 100000

namespace GoCommon

namespace logger

/-- The claim's wording of "frame `j` does not qualify": unresolvable, a `_test.go` file, or
in one of the excluded packages. -/
theorem frameSkipped_of_excluded (stack : Stack) (j : Nat)
    (h : stack j = none ∨ ∃ f, stack j = some f ∧
      (strings.HasSuffix f "_test.go" = true ∨ strings.Contains f gormPackage = true ∨
        strings.Contains f zapgormPackage = true)) :
    frameSkipped (stack j) = true := by
  rcases h with h | ⟨f, hf, h⟩
  · rw [h]; rfl
  · rw [hf]
    simp only [frameSkipped, Bool.or_eq_true]
    rcases h with h | h | h
    · exact Or.inl (Or.inl h)
    · exact Or.inl (Or.inr h)
    · exact Or.inr h

theorem frameSkipped_of_qualifies (file : String)
    (htest : strings.HasSuffix file "_test.go" = false)
    (hgorm : strings.Contains file gormPackage = false)
    (hzap : strings.Contains file zapgormPackage = false) :
    frameSkipped (some file) = false := by
  simp [frameSkipped, htest, hgorm, hzap]

/-- When every frame of the window is passed over, the loop probes the whole window and
returns nothing. -/
theorem scanFrom_exhausted (stack : Stack) :
    ∀ (fuel i : Nat), (∀ j, i ≤ j → j < i + fuel → frameSkipped (stack j) = true) →
      scanFrom stack fuel i = (List.range' i fuel, none) := by
  intro fuel
  induction fuel with
  | zero => intro i _; rfl
  | succ n ih =>
    intro i h
    have hi : frameSkipped (stack i) = true := h i (Nat.le_refl i) (by omega)
    have hrest := ih (i + 1) (fun j h1 h2 => h j (by omega) (by omega))
    simp [scanFrom, hi, hrest, List.range']

/-- The loop stops at the first frame that is not passed over. -/
theorem scanFrom_first (stack : Stack) :
    ∀ (fuel i k : Nat), i ≤ k → k < i + fuel → frameSkipped (stack k) = false →
      (∀ j, i ≤ j → j < k → frameSkipped (stack j) = true) →
      scanFrom stack fuel i = (List.range' i (k - i + 1), some k) := by
  intro fuel
  induction fuel with
  | zero => intro i k h1 h2; omega
  | succ n ih =>
    intro i k h1 h2 hk hmin
    by_cases hik : i = k
    · subst hik
      simp [scanFrom, hk, List.range']
    · have hi : frameSkipped (stack i) = true := hmin i (Nat.le_refl i) (by omega)
      have hrest := ih (i + 1) k (by omega) (by omega) hk
        (fun j h3 h4 => hmin j (by omega) h4)
      have hlen : k - i + 1 = (k - (i + 1) + 1) + 1 := by omega
      rw [hlen]
      simp [scanFrom, hi, hrest, List.range']

/-- The loop never probes outside the window it was given. -/
theorem scanFrom_bounded (stack : Stack) :
    ∀ (fuel i : Nat), (scanFrom stack fuel i).1.length ≤ fuel ∧
      ∀ d ∈ (scanFrom stack fuel i).1, i ≤ d ∧ d < i + fuel := by
  intro fuel
  induction fuel with
  | zero => intro i; simp [scanFrom]
  | succ n ih =>
    intro i
    by_cases hi : frameSkipped (stack i) = true
    · have h := ih (i + 1)
      simp only [scanFrom, hi, if_true, List.length_cons, List.mem_cons]
      refine ⟨by omega, ?_⟩
      intro d hd
      rcases hd with hd | hd
      · omega
      · have := h.2 d hd; omega
    · simp only [scanFrom, hi, List.length_cons, List.mem_cons]
      simp

/-- C8. `GormLogger.logger` attributes the record to the frame at the smallest depth `i`,
`2 ≤ i < 15`, that is resolvable, is not a `_test.go` file and contains none of the excluded
package paths: the returned logger is the adapter's logger with caller skip
`base - 2 + i`, and for an adapter over the logger of `InitLogger` (base skip 1) the frame zap
reports is exactly the frame at depth `i`, whose file is the qualifying one. With two
excluded frames at depths 2 and 3 and a qualifying one at depth 4 this is the third examined
frame. -/
theorem logger_attributes_first_qualifying_frame (l : GormLogger) (stack : Stack) (i : Nat)
    (file : String) (hlo : 2 ≤ i) (hhi : i < 15)
    (hres : stack i = some file)
    (htest : strings.HasSuffix file "_test.go" = false)
    (hgorm : strings.Contains file gormPackage = false)
    (hzap : strings.Contains file zapgormPackage = false)
    (hmin : ∀ j, 2 ≤ j → j < i → (stack j = none ∨ ∃ f, stack j = some f ∧
      (strings.HasSuffix f "_test.go" = true ∨ strings.Contains f gormPackage = true ∨
        strings.Contains f zapgormPackage = true))) :
    l.logger stack = ⟨l.ZapLogger.core, l.ZapLogger.callerSkip - 2 + i⟩ ∧
    (∀ (core : Nat) (threshold : Int),
      callerDepth ((GormLogger.mk (InitLogger core) threshold).logger stack) = i ∧
      stack (callerDepth ((GormLogger.mk (InitLogger core) threshold).logger stack)).toNat
        = some file) := by
  have hscan : scanFrom stack (15 - 2) 2 = (List.range' 2 (i - 2 + 1), some i) :=
    scanFrom_first stack (15 - 2) 2 i hlo (by omega)
      (by rw [hres]; exact frameSkipped_of_qualifies file htest hgorm hzap)
      (fun j h1 h2 => frameSkipped_of_excluded stack j (hmin j h1 h2))
  have hgen : ∀ l' : GormLogger,
      l'.logger stack = ⟨l'.ZapLogger.core, l'.ZapLogger.callerSkip - 2 + i⟩ := by
    intro l'
    simp only [GormLogger.logger, hscan, ZapLogger.WithCallerSkip, Int.ofNat_eq_coe]
    rfl
  refine ⟨hgen l, ?_⟩
  intro core threshold
  have hd : callerDepth ((GormLogger.mk (InitLogger core) threshold).logger stack) = i := by
    rw [hgen]
    simp only [callerDepth, InitLogger, ZapLogger.WithCallerSkip]
    omega
  refine ⟨hd, ?_⟩
  rw [hd]
  simpa using hres

theorem logger_attributes_first_qualifying_frame_witness :
    (NewGormLogger (InitLogger 0)).logger exampleStack = ⟨0, 1 - 2 + 4⟩ ∧
    callerDepth ((GormLogger.mk (InitLogger 0) 0).logger exampleStack) = 4 ∧
    exampleStack (callerDepth ((GormLogger.mk (InitLogger 0) 0).logger exampleStack)).toNat
      = some "/srv/app/models/user.go" :=
  have h := logger_attributes_first_qualifying_frame (NewGormLogger (InitLogger 0))
    exampleStack 4 "/srv/app/models/user.go" (by decide) (by decide) (by rfl) (by decide)
    (by decide) (by decide)
    (by
      intro j h1 h2
      have hj : j = 2 ∨ j = 3 := by omega
      rcases hj with hj | hj
      · subst hj
        exact Or.inr ⟨"/go/pkg/mod/gorm.io/gorm@v1.25.5/callbacks.go", rfl,
          Or.inr (Or.inl (by decide))⟩
      · subst hj
        exact Or.inr ⟨"/go/pkg/mod/gorm.io/gorm@v1.25.5/finisher_api.go", rfl,
          Or.inr (Or.inl (by decide))⟩)
  ⟨h.1, h.2 0 0⟩

/-- C9. When no frame at depths 2 to 14 qualifies, `GormLogger.logger` probes exactly the
thirteen depths 2, ..., 14 and returns the adapter's own `ZapLogger` unchanged (same core,
same caller skip); over the logger of `InitLogger` the reported frame is then depth 2, the
immediate caller of the adapter method. The function is total, and for every stack at most
thirteen depths, all inside the window, are probed. -/
theorem logger_falls_back_when_no_frame_qualifies (l : GormLogger) (stack : Stack)
    (hnone : ∀ j, 2 ≤ j → j < 15 → (stack j = none ∨ ∃ f, stack j = some f ∧
      (strings.HasSuffix f "_test.go" = true ∨ strings.Contains f gormPackage = true ∨
        strings.Contains f zapgormPackage = true))) :
    l.logger stack = l.ZapLogger ∧
    (l.logger stack).callerSkip = l.ZapLogger.callerSkip ∧
    l.probedDepths stack = [2, 3, 4, 5, 6, 7, 8, 9, 10, 11, 12, 13, 14] ∧
    (∀ (core : Nat) (threshold : Int),
      callerDepth ((GormLogger.mk (InitLogger core) threshold).logger stack) = 2) ∧
    (∀ other : Stack, (l.probedDepths other).length ≤ 13 ∧
      ∀ d ∈ l.probedDepths other, 2 ≤ d ∧ d < 15) := by
  have hscan : scanFrom stack (15 - 2) 2 = (List.range' 2 (15 - 2), none) :=
    scanFrom_exhausted stack (15 - 2) 2
      (fun j h1 h2 => frameSkipped_of_excluded stack j (hnone j h1 (by omega)))
  have hgen : ∀ l' : GormLogger, l'.logger stack = l'.ZapLogger := by
    intro l'
    simp only [GormLogger.logger, hscan]
  refine ⟨hgen l, by rw [hgen], ?_, ?_, ?_⟩
  · simp only [GormLogger.probedDepths, hscan]
    rfl
  · intro core threshold
    rw [hgen]
    rfl
  · intro other
    have h := scanFrom_bounded other (15 - 2) 2
    exact ⟨h.1, fun d hd => by have := h.2 d hd; omega⟩

theorem logger_falls_back_when_no_frame_qualifies_witness :
    (NewGormLogger (InitLogger 0)).logger emptyStack = InitLogger 0 ∧
    (NewGormLogger (InitLogger 0)).probedDepths emptyStack
      = [2, 3, 4, 5, 6, 7, 8, 9, 10, 11, 12, 13, 14] :=
  have h := logger_falls_back_when_no_frame_qualifies (NewGormLogger (InitLogger 0))
    emptyStack (fun _ _ _ => Or.inl rfl)
  ⟨h.1, h.2.2.1⟩

end logger

end GoCommon

namespace GoCommon.logger

/-- The claim of C4 as stated fails when the operation is also slow: with the default
threshold of 200 ms, a not-found outcome after 300 ms yields two warning-level records. -/
theorem trace_not_found_slow_emits_two_warnings :
    countLevel Level.warn
      ((NewGormLogger (InitLogger 0)).Trace (fun _ => "300.000") emptyStack 300000000 0
        (fun _ => ("SELECT 1", 0)) (some GoError.recordNotFound)) = 2 := by
  decide

/-- C4 (amended). A `Trace` call whose error is the record-not-found sentinel, directly or
wrapped, emits no error-level record and exactly one outcome record, the warning
"Database ErrRecordNotFound" with the fields sql, time, rows; the slow-operation warning
follows it exactly when the threshold is non-zero and exceeded, so the number of
warning-level records is one when the slow check does not fire and two when it does. -/
theorem trace_not_found_records (sprintf3 : Int → String) (l : GormLogger) (stack : Stack)
    (now begin : Int) (fc : Unit → String × Int) (e : GoError)
    (hnf : errorsIs e GoError.recordNotFound = true) :
    l.Trace sprintf3 stack now begin fc (some e) =
      ⟨l.logger stack, Level.warn, "Database ErrRecordNotFound",
        [zapString "sql" (fc ()).1,
         zapString "time" (helpers.MicrosecondsStr sprintf3 (timeSince now begin)),
         zapInt64 "rows" (fc ()).2]⟩ ::
      (if l.SlowThreshold ≠ 0 ∧ timeSince now begin > l.SlowThreshold then
        [⟨l.logger stack, Level.warn, "Database Slow Log",
          [zapString "sql" (fc ()).1,
          zapString "time" (helpers.MicrosecondsStr sprintf3 (timeSince now begin)),
          zapInt64 "rows" (fc ()).2]⟩]
       else []) ∧
    countLevel Level.error (l.Trace sprintf3 stack now begin fc (some e)) = 0 ∧
    countLevel Level.warn (l.Trace sprintf3 stack now begin fc (some e)) =
      (if l.SlowThreshold ≠ 0 ∧ timeSince now begin > l.SlowThreshold then 2 else 1) := by
  have hrec : l.Trace sprintf3 stack now begin fc (some e) =
      ⟨l.logger stack, Level.warn, "Database ErrRecordNotFound",
        [zapString "sql" (fc ()).1,
         zapString "time" (helpers.MicrosecondsStr sprintf3 (timeSince now begin)),
         zapInt64 "rows" (fc ()).2]⟩ ::
      (if l.SlowThreshold ≠ 0 ∧ timeSince now begin > l.SlowThreshold then
        [⟨l.logger stack, Level.warn, "Database Slow Log",
          [zapString "sql" (fc ()).1,
          zapString "time" (helpers.MicrosecondsStr sprintf3 (timeSince now begin)),
          zapInt64 "rows" (fc ()).2]⟩]
       else []) := by
    simp only [GormLogger.Trace, hnf, if_true]
    split <;> rfl
  refine ⟨hrec, ?_, ?_⟩
  · rw [hrec]
    split <;> simp [countLevel]
  · rw [hrec]
    split <;> simp [countLevel]

theorem trace_not_found_records_witness :
    countLevel Level.error
      ((NewGormLogger (InitLogger 0)).Trace (fun _ => "1.000") exampleStack 1000000 0
        (fun _ => ("SELECT 1", 0))
        (some (GoError.wrapped "find user" GoError.recordNotFound))) = 0 ∧
    countLevel Level.warn
      ((NewGormLogger (InitLogger 0)).Trace (fun _ => "1.000") exampleStack 1000000 0
        (fun _ => ("SELECT 1", 0))
        (some (GoError.wrapped "find user" GoError.recordNotFound))) = 1 :=
  have h := trace_not_found_records (fun _ => "1.000") (NewGormLogger (InitLogger 0))
    exampleStack 1000000 0 (fun _ => ("SELECT 1", 0))
    (GoError.wrapped "find user" GoError.recordNotFound) (by decide)
  ⟨h.2.1, h.2.2.trans (by decide)⟩

/-- C5. With a nil error, a non-zero threshold and an elapsed time above it, `Trace` emits
exactly one record: the warning "Database Slow Log" with the fields sql, time and rows. No
outcome record is emitted. -/
theorem trace_slow_success_single_warning (sprintf3 : Int → String) (l : GormLogger)
    (stack : Stack) (now begin : Int) (fc : Unit → String × Int)
    (hthr : l.SlowThreshold ≠ 0) (hslow : timeSince now begin > l.SlowThreshold) :
    l.Trace sprintf3 stack now begin fc none =
      [⟨l.logger stack, Level.warn, "Database Slow Log",
        [zapString "sql" (fc ()).1,
         zapString "time" (helpers.MicrosecondsStr sprintf3 (timeSince now begin)),
         zapInt64 "rows" (fc ()).2]⟩] := by
  simp [GormLogger.Trace, hthr, hslow]

theorem trace_slow_success_single_warning_witness :
    (NewGormLogger (InitLogger 0)).Trace (fun _ => "300.000") exampleStack 300000000 0
        (fun _ => ("SELECT 1", 7)) none =
      [⟨⟨0, 3⟩, Level.warn, "Database Slow Log",
        [zapString "sql" "SELECT 1", zapString "time" "300.000ms", zapInt64 "rows" 7]⟩] :=
  (trace_slow_success_single_warning (fun _ => "300.000") (NewGormLogger (InitLogger 0))
    exampleStack 300000000 0 (fun _ => ("SELECT 1", 7)) (by decide) (by decide)).trans
    (by decide)

end GoCommon.logger

namespace GoCommon.logger

/-- C6. For a non-nil error that is not the record-not-found sentinel, `Trace` emits
exactly one error-level record, "Database Error", whose fields are sql, time, rows and the
error, and no "Database ErrRecordNotFound" record; the only other record it can emit is the
slow-operation warning. For a nil error no outcome record is emitted: the output is empty or
is the single slow-operation warning. -/
theorem trace_error_and_nil_outcomes (sprintf3 : Int → String) (l : GormLogger)
    (stack : Stack) (now begin : Int) (fc : Unit → String × Int) :
    (∀ e : GoError, errorsIs e GoError.recordNotFound = false →
      l.Trace sprintf3 stack now begin fc (some e) =
        ⟨l.logger stack, Level.error, "Database Error",
          [zapString "sql" (fc ()).1,
           zapString "time" (helpers.MicrosecondsStr sprintf3 (timeSince now begin)),
           zapInt64 "rows" (fc ()).2, zapError e]⟩ ::
        (if l.SlowThreshold ≠ 0 ∧ timeSince now begin > l.SlowThreshold then
          [⟨l.logger stack, Level.warn, "Database Slow Log",
            [zapString "sql" (fc ()).1,
             zapString "time" (helpers.MicrosecondsStr sprintf3 (timeSince now begin)),
             zapInt64 "rows" (fc ()).2, zapError e]⟩]
         else []) ∧
      countLevel Level.error (l.Trace sprintf3 stack now begin fc (some e)) = 1 ∧
      (∀ r ∈ l.Trace sprintf3 stack now begin fc (some e),
        r.message ≠ "Database ErrRecordNotFound")) ∧
    l.Trace sprintf3 stack now begin fc none =
      (if l.SlowThreshold ≠ 0 ∧ timeSince now begin > l.SlowThreshold then
        [⟨l.logger stack, Level.warn, "Database Slow Log",
          [zapString "sql" (fc ()).1,
           zapString "time" (helpers.MicrosecondsStr sprintf3 (timeSince now begin)),
           zapInt64 "rows" (fc ()).2]⟩]
       else []) := by
  refine ⟨?_, ?_⟩
  · intro e he
    have hrec : l.Trace sprintf3 stack now begin fc (some e) =
        ⟨l.logger stack, Level.error, "Database Error",
          [zapString "sql" (fc ()).1,
           zapString "time" (helpers.MicrosecondsStr sprintf3 (timeSince now begin)),
           zapInt64 "rows" (fc ()).2, zapError e]⟩ ::
        (if l.SlowThreshold ≠ 0 ∧ timeSince now begin > l.SlowThreshold then
          [⟨l.logger stack, Level.warn, "Database Slow Log",
            [zapString "sql" (fc ()).1,
             zapString "time" (helpers.MicrosecondsStr sprintf3 (timeSince now begin)),
             zapInt64 "rows" (fc ()).2, zapError e]⟩]
         else []) := by
      simp only [GormLogger.Trace, he, Bool.false_eq_true, if_false]
      split <;> rfl
    refine ⟨hrec, ?_, ?_⟩
    · rw [hrec]
      split <;> simp [countLevel]
    · rw [hrec]
      intro r hr
      split at hr
      · simp only [List.mem_cons, List.mem_singleton, List.not_mem_nil, or_false] at hr
        rcases hr with hr | hr <;> subst hr <;> simp
      · simp only [List.mem_cons, List.not_mem_nil, or_false] at hr
        subst hr
        simp
  · simp only [GormLogger.Trace]
    split <;> rfl

theorem trace_error_and_nil_outcomes_witness :
    (NewGormLogger (InitLogger 0)).Trace (fun _ => "1.000") exampleStack 1000000 0
        (fun _ => ("UPDATE t", 0)) (some (GoError.leaf "duplicate key")) =
      [⟨⟨0, 3⟩, Level.error, "Database Error",
        [zapString "sql" "UPDATE t", zapString "time" "1.000ms", zapInt64 "rows" 0,
         zapError (GoError.leaf "duplicate key")]⟩] :=
  ((trace_error_and_nil_outcomes (fun _ => "1.000") (NewGormLogger (InitLogger 0))
    exampleStack 1000000 0 (fun _ => ("UPDATE t", 0))).1 (GoError.leaf "duplicate key")
    (by decide)).1.trans (by decide)

/-- The claim of C7 as stated fails for `Info`: its record has debug severity, so no
info-level record is emitted. -/
theorem info_emits_no_info_level_record :
    (GormLogger.Info (fun (t : String) (_ : List String) => t) (NewGormLogger (InitLogger 0))
      exampleStack "connected" []).map (fun r => r.level) = [Level.debug] ∧
    countLevel Level.info
      (GormLogger.Info (fun (t : String) (_ : List String) => t)
        (NewGormLogger (InitLogger 0)) exampleStack "connected" []) = 0 := by
  decide

/-- C7 (amended). `Info`, `Warn` and `Error` each emit exactly one record, without fields,
whose message is the formatted template, written through the logger that `logger()`
returns: `Info` at debug severity, `Warn` at warning severity, `Error` at error severity. -/
theorem info_warn_error_records {α : Type} (sprintf : String → List α → String)
    (l : GormLogger) (stack : Stack) (str : String) (args : List α) :
    l.Info sprintf stack str args =
      [⟨l.logger stack, Level.debug, sugarMessage sprintf str args, []⟩] ∧
    l.Warn sprintf stack str args =
      [⟨l.logger stack, Level.warn, sugarMessage sprintf str args, []⟩] ∧
    l.Error sprintf stack str args =
      [⟨l.logger stack, Level.error, sugarMessage sprintf str args, []⟩] :=
  ⟨rfl, rfl, rfl⟩

end GoCommon.logger

namespace GoCommon.viperlib

/-- Lower-casing an ASCII character twice is lower-casing it once. -/
theorem asciiToLower_idem (c : Char) : asciiToLower (asciiToLower c) = asciiToLower c := by
  show c.toLower.toLower = c.toLower
  by_cases h : 65 ≤ c.toNat ∧ c.toNat ≤ 90
  · have hc : c = Char.ofNat c.toNat := (Char.ofNat_toNat c).symm
    obtain ⟨h1, h2⟩ := h
    generalize c.toNat = n at hc h1 h2
    subst hc
    interval_cases n <;> rfl
  · have hfix : c.toLower = c := by
      unfold Char.toLower
      simp only [ge_iff_le]
      rw [if_neg h]
    rw [hfix, hfix]

/-- Characters of a lower-cased key are fixed by lower-casing. -/
theorem lowerKey_data_fixed (toLower : Char → Char)
    (hlower : ∀ c, toLower (toLower c) = toLower c) (s : String) :
    ∀ c ∈ (lowerKey toLower s).data, toLower c = c := by
  intro c hc
  simp only [lowerKey, List.mem_map] at hc
  obtain ⟨a, _, rfl⟩ := hc
  exact hlower a

theorem splitDot_ne_nil (l : List Char) : splitDot l ≠ [] := by
  cases l with
  | nil => simp [splitDot]
  | cons c cs =>
    simp only [splitDot]
    split
    · simp
    · split <;> simp

theorem splitDot_fixed (toLower : Char → Char) (l : List Char)
    (h : ∀ c ∈ l, toLower c = c) :
    ∀ w ∈ splitDot l, ∀ c ∈ w, toLower c = c := by
  induction l with
  | nil => intro w hw c hc; simp [splitDot] at hw; subst hw; simp at hc
  | cons a as ih =>
    have ih1 := ih (fun c hc => h c (List.mem_cons_of_mem a hc))
    have ha : toLower a = a := h a (List.mem_cons_self a as)
    intro w hw c hc
    simp only [splitDot] at hw
    split at hw
    · rcases List.mem_cons.mp hw with hw | hw
      · subst hw; simp at hc
      · exact ih1 w hw c hc
    · split at hw
      · simp only [List.mem_singleton] at hw
        subst hw
        simp only [List.mem_singleton] at hc
        subst hc; exact ha
      · rename_i w1 ws heq
        rcases List.mem_cons.mp hw with hw | hw
        · subst hw
          rcases List.mem_cons.mp hc with hc | hc
          · subst hc; exact ha
          · exact ih1 w1 (by rw [heq]; exact List.mem_cons_self _ _) c hc
        · exact ih1 w (by rw [heq]; exact List.mem_cons_of_mem _ hw) c hc

theorem lowerKey_mk_fixed (toLower : Char → Char) (w : List Char)
    (h : ∀ c ∈ w, toLower c = c) :
    lowerKey toLower (String.mk w) = String.mk w := by
  simp only [lowerKey]
  congr 1
  induction w with
  | nil => rfl
  | cons a as ih =>
    simp only [List.map_cons]
    rw [h a (List.mem_cons_self a as), ih (fun c hc => h c (List.mem_cons_of_mem a hc))]

theorem splitKey_ne_nil (key : String) : splitKey key ≠ [] := by
  simp [splitKey, splitDot_ne_nil]

/-- Every component of the path of a lower-cased key is fixed by lower-casing. -/
theorem splitKey_lowerKey_fixed (toLower : Char → Char)
    (hlower : ∀ c, toLower (toLower c) = toLower c) (key : String) :
    ∀ k ∈ splitKey (lowerKey toLower key), lowerKey toLower k = k := by
  intro k hk
  simp only [splitKey, List.mem_map] at hk
  obtain ⟨w, hw, rfl⟩ := hk
  exact lowerKey_mk_fixed toLower w
    (splitDot_fixed toLower _ (lowerKey_data_fixed toLower hlower key) w hw)

/-- The path `Set` writes to is the path `find` reads from. -/
theorem set_path_eq (toLower : Char → Char)
    (hlower : ∀ c, toLower (toLower c) = toLower c) (key : String) :
    (splitKey (lowerKey toLower key)).dropLast ++
      [lowerKey toLower ((splitKey (lowerKey toLower key)).getLastD "")]
      = splitKey (lowerKey toLower key) := by
  have hne := splitKey_ne_nil (lowerKey toLower key)
  have hgen : ∀ (l : List String) (h : l ≠ []), l.getLastD "" = l.getLast h := by
    intro l h
    cases l with
    | nil => exact absurd rfl h
    | cons a as => rfl
  rw [hgen _ hne, splitKey_lowerKey_fixed toLower hlower key _ (List.getLast_mem hne)]
  exact List.dropLast_append_getLast hne

theorem mapGet_mapSet_same (k : String) (v : Value) (m : List (String × Value)) :
    mapGet k (mapSet k v m) = some v := by
  induction m with
  | nil => simp [mapSet, mapGet]
  | cons e rest ih =>
    obtain ⟨k1, v1⟩ := e
    by_cases h : k1 = k
    · simp [mapSet, mapGet, h]
    · simp [mapSet, mapGet, h, ih]

theorem mapGet_mapSet_other (k k2 : String) (v : Value) (m : List (String × Value))
    (hne : k2 ≠ k) : mapGet k2 (mapSet k v m) = mapGet k2 m := by
  induction m with
  | nil => simp [mapSet, mapGet, Ne.symm hne]
  | cons e rest ih =>
    obtain ⟨k1, v1⟩ := e
    by_cases h : k1 = k
    · subst h
      simp [mapSet, mapGet, Ne.symm hne]
    · by_cases h2 : k1 = k2
      · subst h2
        simp [mapSet, mapGet, h]
      · simp [mapSet, mapGet, h, h2, ih]

/-- Reading the path just written returns the value written. -/
theorem searchMap_deepSet_same (value : Value) (lastKey : String) :
    ∀ (parents : List String) (m : List (String × Value)),
      searchMap (deepSet m parents lastKey value) (parents ++ [lastKey]) = value := by
  intro parents
  induction parents with
  | nil => intro m; simp [deepSet, searchMap, mapGet_mapSet_same]
  | cons k rest ih =>
    intro m
    simp only [deepSet, List.cons_append, searchMap, mapGet_mapSet_same]
    simp [ih]

/-- A write leaves every path alone that neither contains nor extends the written one. -/
theorem searchMap_deepSet_other (value : Value) (lastKey : String) :
    ∀ (parents : List String) (m : List (String × Value)) (p : List String),
      p ≠ [] → p.isPrefixOf (parents ++ [lastKey]) = false →
      (parents ++ [lastKey]).isPrefixOf p = false →
      searchMap (deepSet m parents lastKey value) p = searchMap m p := by
  intro parents
  induction parents with
  | nil =>
    intro m p hp h1 h2
    cases p with
    | nil => exact absurd rfl hp
    | cons k2 rest2 =>
      have hne : k2 ≠ lastKey := by
        intro h; subst h
        simp [List.isPrefixOf] at h2
      simp [deepSet, searchMap, mapGet_mapSet_other _ _ _ _ hne]
  | cons k rest ih =>
    intro m p hp h1 h2
    cases p with
    | nil => exact absurd rfl hp
    | cons k2 rest2 =>
      by_cases hk : k2 = k
      · subst hk
        have hr2 : rest2 ≠ [] := by
          intro h; subst h
          simp [List.isPrefixOf] at h1
        have h1r : rest2.isPrefixOf (rest ++ [lastKey]) = false := by
          simpa [List.isPrefixOf] using h1
        have h2r : (rest ++ [lastKey]).isPrefixOf rest2 = false := by
          simpa [List.isPrefixOf] using h2
        have hemp : rest2.isEmpty = false := by
          cases rest2 with
          | nil => exact absurd rfl hr2
          | cons _ _ => rfl
        simp only [deepSet, searchMap, mapGet_mapSet_same, hemp]
        simp only [Bool.false_eq_true, if_false]
        rw [ih _ rest2 hr2 h1r h2r]
        cases hg : mapGet k2 m with
        | none =>
          cases rest2 with
          | nil => exact absurd rfl hr2
          | cons a b => simp [searchMap, mapGet]
        | some next =>
          cases next <;> first
            | rfl
            | (cases rest2 with
               | nil => exact absurd rfl hr2
               | cons a b => simp [searchMap, mapGet])
      · simp [deepSet, searchMap, mapGet_mapSet_other _ _ _ _ hk]

theorem toCaseInsensitiveValue_isNil (toLower : Char → Char) (value : Value) :
    (toCaseInsensitiveValue toLower value).isNil = value.isNil := by
  cases value <;> rfl

theorem mapSet_length_pos (k : String) (v : Value) (m : List (String × Value)) :
    (mapSet k v m).length ≠ 0 := by
  cases m with
  | nil => simp [mapSet]
  | cons e rest =>
    obtain ⟨k1, v1⟩ := e
    simp only [mapSet]
    split <;> simp

theorem mapSet_ne_nil (k : String) (v : Value) (m : List (String × Value)) :
    mapSet k v m ≠ [] := by
  intro h
  exact mapSet_length_pos k v m (by rw [h]; rfl)

theorem copyEntriesInto_ne_nil (toLower : Char → Char) :
    ∀ (entries nm : List (String × Value)), nm ≠ [] →
      copyEntriesInto toLower entries nm ≠ [] := by
  intro entries
  induction entries with
  | nil => intro nm h; simpa [copyEntriesInto] using h
  | cons e rest ih =>
    intro nm _
    obtain ⟨k, v⟩ := e
    simp only [copyEntriesInto]
    exact ih _ (mapSet_ne_nil _ _ _)

theorem copyAndInsensitiviseMap_length (toLower : Char → Char)
    (entries : List (String × Value)) :
    ((copyAndInsensitiviseMap toLower entries).length == 0) = (entries.length == 0) := by
  cases entries with
  | nil => simp [copyAndInsensitiviseMap, copyEntriesInto]
  | cons e rest =>
    obtain ⟨k, v⟩ := e
    have h : copyAndInsensitiviseMap toLower ((k, v) :: rest) ≠ [] := by
      simp only [copyAndInsensitiviseMap, copyEntriesInto]
      exact copyEntriesInto_ne_nil toLower rest _ (mapSet_ne_nil _ _ _)
    simp [h]

/-- What `Set` stores is empty exactly when the value handed to it is. -/
theorem empty_toCaseInsensitiveValue (toLower : Char → Char) (value : Value) :
    helpers.Empty (toCaseInsensitiveValue toLower value) = helpers.Empty value := by
  cases value <;> try rfl
  case map entries =>
    simp only [toCaseInsensitiveValue, helpers.Empty]
    exact copyAndInsensitiviseMap_length toLower entries

/-- A value found in the override register answers the lookup, whatever lies below. -/
theorem find_of_override (v : Viper) (lcaseKey : String) (x : Value)
    (hx : searchMap v.override (splitKey lcaseKey) = x) (hnn : x.isNil = false) :
    v.find lcaseKey = x := by
  simp [Viper.find, hx, hnn]

theorem override_after_set (toLower : Char → Char)
    (hlower : ∀ c, toLower (toLower c) = toLower c) (v : Viper) (key : String)
    (value : Value) :
    searchMap (v.Set toLower key value).override (splitKey (lowerKey toLower key)) =
      toCaseInsensitiveValue toLower value := by
  have h := searchMap_deepSet_same (toCaseInsensitiveValue toLower value)
    (lowerKey toLower ((splitKey (lowerKey toLower key)).getLastD ""))
    (splitKey (lowerKey toLower key)).dropLast v.override
  rw [set_path_eq toLower hlower] at h
  exact h

/-- A later `Set` on an unrelated path leaves the override entry of a key in place. -/
theorem override_after_other_set (toLower : Char → Char)
    (hlower : ∀ c, toLower (toLower c) = toLower c) (v : Viper) (key other : String)
    (value : Value)
    (h1 : (splitKey (lowerKey toLower key)).isPrefixOf
      (splitKey (lowerKey toLower other)) = false)
    (h2 : (splitKey (lowerKey toLower other)).isPrefixOf
      (splitKey (lowerKey toLower key)) = false) :
    searchMap (v.Set toLower other value).override (splitKey (lowerKey toLower key)) =
      searchMap v.override (splitKey (lowerKey toLower key)) := by
  have h := searchMap_deepSet_other (toCaseInsensitiveValue toLower value)
    (lowerKey toLower ((splitKey (lowerKey toLower other)).getLastD ""))
    (splitKey (lowerKey toLower other)).dropLast
    v.override (splitKey (lowerKey toLower key)) (splitKey_ne_nil _)
  rw [set_path_eq toLower hlower] at h
  exact h h1 h2

end GoCommon.viperlib

namespace GoCommon.config

open viperlib

theorem empty_of_isNil (x : Value) (h : x.isNil = true) : helpers.Empty x = true := by
  cases x <;> first | rfl | (simp [Value.isNil] at h)

/-- The store after the sections in `post` have been merged still holds, under `name`, a
value merged before them, when no name in `post` addresses the same, an enclosing or a
nested path. -/
theorem override_after_loadConfig (toLower : Char → Char)
    (hlower : ∀ c, toLower (toLower c) = toLower c) (name : String) (x : Value) :
    ∀ (post : List (String × ConfigFunc)) (v : Viper),
      (∀ e ∈ post,
        (splitKey (lowerKey toLower name)).isPrefixOf
          (splitKey (lowerKey toLower e.1)) = false ∧
        (splitKey (lowerKey toLower e.1)).isPrefixOf
          (splitKey (lowerKey toLower name)) = false) →
      searchMap v.override (splitKey (lowerKey toLower name)) = x →
      searchMap (loadConfig toLower post v).override (splitKey (lowerKey toLower name))
        = x := by
  intro post
  induction post with
  | nil => intro v _ hx; exact hx
  | cons e rest ih =>
    intro v hpost hx
    have he := hpost e (List.mem_cons_self e rest)
    simp only [loadConfig, List.foldl_cons]
    apply ih
    · intro e2 he2
      exact hpost e2 (List.mem_cons_of_mem e he2)
    · rw [override_after_other_set toLower hlower v name e.1 _ he.1 he.2]
      exact hx

/-- `Add` leaves the section registered under its name, once. -/
theorem Add_registers (ConfigFuncs : List (String × ConfigFunc)) (name : String)
    (configFn : ConfigFunc) :
    ∃ pre post, Add ConfigFuncs name configFn = pre ++ (name, configFn) :: post ∧
      ∀ e ∈ pre, e.1 ≠ name := by
  induction ConfigFuncs with
  | nil => exact ⟨[], [], rfl, by simp⟩
  | cons e rest ih =>
    obtain ⟨n, f⟩ := e
    by_cases h : n = name
    · exact ⟨[], rest, by simp [Add, h], by simp⟩
    · obtain ⟨pre, post, heq, hpre⟩ := ih
      refine ⟨(n, f) :: pre, post, by simp [Add, h, heq], ?_⟩
      intro e he
      rcases List.mem_cons.mp he with he | he
      · subst he; exact h
      · exact hpre e he

theorem loadConfig_append (toLower : Char → Char) (pre post : List (String × ConfigFunc))
    (v : Viper) :
    loadConfig toLower (pre ++ post) v
      = loadConfig toLower post (loadConfig toLower pre v) := by
  simp [loadConfig, List.foldl_append]

end GoCommon.config

namespace GoCommon.config

open viperlib

/-- C1. `internalGet` returns the first supplied default, or nil when no default is
supplied, whenever the key is not set or its stored value is empty by `helpers.Empty`;
otherwise it returns the stored value. `Env` agrees with `internalGet`, every typed getter
is its `cast` conversion applied to that result, and without a default an unset or empty
key reads as the zero value of the getter's type. `helpers.Empty` holds of nil, the empty
string, zero numbers, false and empty collections. -/
theorem internalGet_default_policy (toLower : Char → Char) (viper : Viper) (path : String)
    (defaultVal : List Value) :
    ((viper.IsSet toLower path = false ∨ helpers.Empty (viper.Get toLower path) = true) →
      (∀ d rest, defaultVal = d :: rest → internalGet toLower viper path defaultVal = d) ∧
      (defaultVal = [] → internalGet toLower viper path defaultVal = Value.nil) ∧
      (∀ (es : Value → String) (ei : Value → Int) (en : Value → Nat) (eb : Value → Bool),
        Get toLower es viper path [] = "" ∧ GetString toLower es viper path [] = "" ∧
        GetInt toLower ei viper path [] = 0 ∧ GetInt64 toLower ei viper path [] = 0 ∧
        GetUint toLower en viper path [] = 0 ∧ GetFloat64 toLower en viper path [] = 0 ∧
        GetBool toLower eb viper path [] = false)) ∧
    ((viper.IsSet toLower path = true ∧ helpers.Empty (viper.Get toLower path) = false) →
      internalGet toLower viper path defaultVal = viper.Get toLower path) ∧
    Env toLower viper path defaultVal = internalGet toLower viper path defaultVal ∧
    (∀ (es : Value → String) (ei : Value → Int) (en : Value → Nat) (eb : Value → Bool),
      Get toLower es viper path defaultVal
        = cast.ToString es (internalGet toLower viper path defaultVal) ∧
      GetString toLower es viper path defaultVal
        = cast.ToString es (internalGet toLower viper path defaultVal) ∧
      GetInt toLower ei viper path defaultVal
        = cast.ToInt ei (internalGet toLower viper path defaultVal) ∧
      GetInt64 toLower ei viper path defaultVal
        = cast.ToInt64 ei (internalGet toLower viper path defaultVal) ∧
      GetUint toLower en viper path defaultVal
        = cast.ToUint en (internalGet toLower viper path defaultVal) ∧
      GetFloat64 toLower en viper path defaultVal
        = cast.ToFloat64 en (internalGet toLower viper path defaultVal) ∧
      GetBool toLower eb viper path defaultVal
        = cast.ToBool eb (internalGet toLower viper path defaultVal)) ∧
    (helpers.Empty Value.nil = true ∧ helpers.Empty (Value.str "") = true ∧
      helpers.Empty (Value.int 0) = true ∧ helpers.Empty (Value.uint 0) = true ∧
      helpers.Empty (Value.float 0) = true ∧ helpers.Empty (Value.bool false) = true ∧
      helpers.Empty (Value.map []) = true ∧ helpers.Empty Value.nilMap = true ∧
      helpers.Empty (Value.slice []) = true ∧ helpers.Empty Value.nilSlice = true ∧
      helpers.Empty (Value.array []) = true) := by
  refine ⟨?_, ?_, ?_, ?_, ?_⟩
  · intro h
    have hcond : (!viper.IsSet toLower path || helpers.Empty (viper.Get toLower path))
        = true := by
      rcases h with h | h <;> simp [h]
    have hnil : internalGet toLower viper path [] = Value.nil := by
      simp only [internalGet, hcond, if_true]
    refine ⟨?_, ?_, ?_⟩
    · intro d rest hd
      subst hd
      simp only [internalGet, hcond, if_true]
    · intro hd
      subst hd
      exact hnil
    · intro es ei en eb
      simp only [Get, GetString, GetInt, GetInt64, GetUint, GetFloat64, GetBool, hnil]
      exact ⟨rfl, rfl, rfl, rfl, rfl, rfl, rfl⟩
  · intro h
    simp [internalGet, h.1, h.2]
  · cases defaultVal with
    | nil => rfl
    | cons d rest =>
      simp only [Env, internalGet]
  · intro es ei en eb
    exact ⟨rfl, rfl, rfl, rfl, rfl, rfl, rfl⟩
  · exact ⟨rfl, rfl, rfl, rfl, rfl, rfl, rfl, rfl, rfl, rfl, rfl⟩

theorem internalGet_default_policy_witness :
    internalGet asciiToLower (New noEnviron) "APP_NAME" [Value.str "Gohub"]
      = Value.str "Gohub" ∧
    internalGet asciiToLower (New noEnviron) "APP_NAME" [] = Value.nil ∧
    internalGet asciiToLower ((New noEnviron).Set asciiToLower "APP_NAME" (Value.str "api"))
      "APP_NAME" [Value.str "Gohub"] = Value.str "api" :=
  ⟨((internalGet_default_policy asciiToLower (New noEnviron) "APP_NAME"
      [Value.str "Gohub"]).1 (Or.inl (by rfl))).1 (Value.str "Gohub") [] rfl,
   ((internalGet_default_policy asciiToLower (New noEnviron) "APP_NAME" []).1
      (Or.inl (by rfl))).2.1 rfl,
   ((internalGet_default_policy asciiToLower
      ((New noEnviron).Set asciiToLower "APP_NAME" (Value.str "api"))
      "APP_NAME" [Value.str "Gohub"]).2.1 ⟨by rfl, by rfl⟩).trans (by rfl)⟩

/-- The claim of C2 as stated fails for a value that `helpers.Empty` counts as empty: after
`InitConfig`, `UpdateConfig("PORT", 0)` followed by `Get("PORT")` returns the empty string,
while the string form of 0 is "0". -/
theorem updateConfig_zero_reads_back_empty :
    (InitConfig asciiToLower noFiles [] "" (New noEnviron)).toOption.map
      (fun s => Get asciiToLower (fun _ => "")
        (UpdateConfig asciiToLower s "PORT" (Value.int 0)) "PORT" [])
      = some "" ∧
    cast.ToString (fun _ => "") (Value.int 0) = "0" := by
  decide

/-- C2 (amended). For every store (the one `InitConfig` leaves included), key and value,
with `toLower` the rune mapping `unicode.ToLower`, of which only idempotence is used: when
the value is not empty by `helpers.Empty`, after `UpdateConfig(k, v)` the lookup of `k`
finds the value the store holds for it, which is `v` itself unless `v` is a map and then
`v` with its keys in lower case, and `Get(k)` without default returns `cast.ToString` of
that value: `v` for a string, "true" for a boolean, the decimal digits for an integer, the
empty string for a map, a slice or an array, which `cast.ToString` does not render. This
holds whatever the registers below the override register answer, before and after a reload
of the file. When the value is empty but not nil the lookup yields nil and `Get(k)` returns
the empty string. -/
theorem updateConfig_then_get (toLower : Char → Char)
    (hlower : ∀ c, toLower (toLower c) = toLower c) (ext : Value → String) (viper : Viper)
    (k : String) (value : Value) :
    (helpers.Empty value = false →
      internalGet toLower (UpdateConfig toLower viper k value) k []
        = toCaseInsensitiveValue toLower value ∧
      Get toLower ext (UpdateConfig toLower viper k value) k []
        = cast.ToString ext (toCaseInsensitiveValue toLower value) ∧
      (∀ reloaded : String → Value,
        internalGet toLower ((UpdateConfig toLower viper k value).fileChanged reloaded) k []
          = toCaseInsensitiveValue toLower value ∧
        Get toLower ext ((UpdateConfig toLower viper k value).fileChanged reloaded) k []
          = cast.ToString ext (toCaseInsensitiveValue toLower value)) ∧
      ((∀ entries, value ≠ Value.map entries) →
        internalGet toLower (UpdateConfig toLower viper k value) k [] = value ∧
        Get toLower ext (UpdateConfig toLower viper k value) k []
          = cast.ToString ext value) ∧
      (∀ s, value = Value.str s →
        Get toLower ext (UpdateConfig toLower viper k value) k [] = s) ∧
      (∀ b, value = Value.bool b →
        Get toLower ext (UpdateConfig toLower viper k value) k [] = "true") ∧
      (∀ i, value = Value.int i →
        Get toLower ext (UpdateConfig toLower viper k value) k [] = toString i) ∧
      (∀ n, value = Value.uint n →
        Get toLower ext (UpdateConfig toLower viper k value) k [] = toString n) ∧
      (∀ entries, value = Value.map entries →
        internalGet toLower (UpdateConfig toLower viper k value) k []
          = Value.map (copyAndInsensitiviseMap toLower entries) ∧
        Get toLower ext (UpdateConfig toLower viper k value) k [] = "") ∧
      (∀ elems, value = Value.slice elems ∨ value = Value.array elems →
        Get toLower ext (UpdateConfig toLower viper k value) k [] = "")) ∧
    (helpers.Empty value = true → value.isNil = false →
      internalGet toLower (UpdateConfig toLower viper k value) k [] = Value.nil ∧
      Get toLower ext (UpdateConfig toLower viper k value) k [] = "" ∧
      (∀ reloaded : String → Value,
        Get toLower ext ((UpdateConfig toLower viper k value).fileChanged reloaded) k []
          = "")) := by
  have hstore : ∀ w : Viper, w.override = (viper.Set toLower k value).override →
      value.isNil = false →
      w.Get toLower k = toCaseInsensitiveValue toLower value ∧
      w.IsSet toLower k = true := by
    intro w hw hnn
    have hf : w.find (lowerKey toLower k) = toCaseInsensitiveValue toLower value :=
      find_of_override w _ _
        (by rw [hw]; exact override_after_set toLower hlower viper k value)
        (by rw [toCaseInsensitiveValue_isNil]; exact hnn)
    refine ⟨hf, ?_⟩
    simp only [Viper.IsSet, hf, toCaseInsensitiveValue_isNil, hnn]
    rfl
  refine ⟨?_, ?_⟩
  · intro hne
    have hnn : value.isNil = false := by
      cases hv : value.isNil with
      | false => rfl
      | true => rw [empty_of_isNil value hv] at hne; exact absurd hne (by decide)
    have hget : ∀ w : Viper, w.override = (viper.Set toLower k value).override →
        internalGet toLower w k [] = toCaseInsensitiveValue toLower value := by
      intro w hw
      obtain ⟨h1, h2⟩ := hstore w hw hnn
      simp [internalGet, h1, h2, empty_toCaseInsensitiveValue, hne]
    have h0 := hget (UpdateConfig toLower viper k value) rfl
    have hG : Get toLower ext (UpdateConfig toLower viper k value) k []
        = cast.ToString ext (toCaseInsensitiveValue toLower value) := by
      simp only [Get, GetString, h0]
    refine ⟨h0, hG, ?_, ?_, ?_, ?_, ?_, ?_, ?_, ?_⟩
    · intro reloaded
      have h1 := hget ((UpdateConfig toLower viper k value).fileChanged reloaded) rfl
      refine ⟨h1, ?_⟩
      simp only [Get, GetString, h1]
    · intro hmap
      have hsame : toCaseInsensitiveValue toLower value = value := by
        cases value <;> first
          | rfl
          | (exact absurd rfl (hmap _))
          | (exact absurd hne (by decide))
      rw [hsame] at h0 hG
      exact ⟨h0, hG⟩
    · intro s hs
      subst hs
      rw [hG]; rfl
    · intro b hb
      subst hb
      rw [hG]
      cases b with
      | true => rfl
      | false => exact absurd hne (by decide)
    · intro i hi
      subst hi
      rw [hG]; rfl
    · intro n hn
      subst hn
      rw [hG]; rfl
    · intro entries hm
      subst hm
      refine ⟨h0, ?_⟩
      rw [hG]; rfl
    · intro elems hs
      rcases hs with hs | hs <;> subst hs <;> rw [hG] <;> rfl
  · intro he hnn
    have hget : ∀ w : Viper, w.override = (viper.Set toLower k value).override →
        internalGet toLower w k [] = Value.nil := by
      intro w hw
      obtain ⟨h1, h2⟩ := hstore w hw hnn
      simp [internalGet, h1, h2, empty_toCaseInsensitiveValue, he]
    refine ⟨hget (UpdateConfig toLower viper k value) rfl, ?_, ?_⟩
    · simp only [Get, GetString, hget (UpdateConfig toLower viper k value) rfl]
      rfl
    · intro reloaded
      simp only [Get, GetString,
        hget ((UpdateConfig toLower viper k value).fileChanged reloaded) rfl]
      rfl

theorem updateConfig_then_get_witness :
    Get asciiToLower (fun _ => "") (UpdateConfig asciiToLower (New noEnviron)
      "MAIN_CTRL_ADDR" (Value.str "127.0.0.1:50051")) "MAIN_CTRL_ADDR" []
      = "127.0.0.1:50051" ∧
    internalGet asciiToLower (UpdateConfig asciiToLower loadedFromFile "App"
      (Value.map [("AB", Value.str "v")])) "APP" []
      = Value.map [("ab", Value.str "v")] ∧
    Get asciiToLower (fun _ => "") (UpdateConfig asciiToLower loadedFromFile "PORT"
      (Value.int 9090)) "port" [] = "9090" ∧
    Get asciiToLower (fun _ => "") (UpdateConfig asciiToLower (New noEnviron) "DEBUG"
      (Value.bool false)) "DEBUG" [] = "" :=
  ⟨((updateConfig_then_get asciiToLower asciiToLower_idem (fun _ => "") (New noEnviron)
      "MAIN_CTRL_ADDR" (Value.str "127.0.0.1:50051")).1 (by decide)).2.2.2.2.1
      "127.0.0.1:50051" rfl,
   (((updateConfig_then_get asciiToLower asciiToLower_idem (fun _ => "") loadedFromFile
      "App" (Value.map [("AB", Value.str "v")])).1 (by decide)).2.2.2.2.2.2.2.2.1
      [("AB", Value.str "v")] rfl).1.trans (by rfl),
   (((updateConfig_then_get asciiToLower asciiToLower_idem (fun _ => "") loadedFromFile
      "PORT" (Value.int 9090)).1 (by decide)).2.2.2.2.2.2.1 9090 rfl).trans (by decide),
   ((updateConfig_then_get asciiToLower asciiToLower_idem (fun _ => "") (New noEnviron)
      "DEBUG" (Value.bool false)).2 (by decide) (by decide)).2.1⟩

end GoCommon.config

namespace GoCommon.config

open viperlib

/-- The claim of C3 as stated fails when two registered names differ only in case: with
`Add("App", sectionOne)` and `Add("app", sectionTwo)` visited in that order, after
`InitConfig` over a file that sets `APP`, the lookup of "App" yields the output of
`sectionTwo`, which is not the output of the function registered under "App". -/
theorem lookup_yields_other_section :
    (InitConfig asciiToLower envFile (Add (Add [] "App" sectionOne) "app" sectionTwo) ""
        (New noEnviron)).toOption.map (fun s => s.Get asciiToLower "App")
      = some (Value.map [("name", Value.str "two")]) ∧
    Value.map [("name", Value.str "two")] ≠ Value.map (sectionOne (New noEnviron)) := by
  refine ⟨by rfl, ?_⟩
  simp [sectionOne]

/-- C3 (amended). Let `loadEnv` succeed, and let `toLower` be the rune mapping
`unicode.ToLower`, of which only idempotence is used. For a section registered under `name`
such that no section visited after it by `loadConfig` has a name addressing the same, an
enclosing or a nested store path (names are compared in lower case and split at `.`),
`InitConfig` succeeds and afterwards the store is set at `name` and a lookup of `name`
yields the map the registered function returned when `loadConfig` called it, with its keys
in lower case, whatever the file holds under that name and also after a later reload of the
file; `internalGet` yields the same map when the function returned at least one entry. -/
theorem section_wins_over_file (toLower : Char → Char)
    (hlower : ∀ c, toLower (toLower c) = toLower c) (fs : FileSystem) (env : String)
    (viper loaded : Viper) (pre post : List (String × ConfigFunc)) (name : String)
    (fn : ConfigFunc)
    (hload : loadEnv fs env viper = Except.ok loaded)
    (hpost : ∀ e ∈ post,
      (splitKey (lowerKey toLower name)).isPrefixOf
        (splitKey (lowerKey toLower e.1)) = false ∧
      (splitKey (lowerKey toLower e.1)).isPrefixOf
        (splitKey (lowerKey toLower name)) = false) :
    InitConfig toLower fs (pre ++ (name, fn) :: post) env viper
      = Except.ok (loadConfig toLower (pre ++ (name, fn) :: post) loaded) ∧
    (loadConfig toLower (pre ++ (name, fn) :: post) loaded).IsSet toLower name = true ∧
    (loadConfig toLower (pre ++ (name, fn) :: post) loaded).Get toLower name
      = Value.map (copyAndInsensitiviseMap toLower (fn (loadConfig toLower pre loaded))) ∧
    (∀ reloaded : String → Value,
      ((loadConfig toLower (pre ++ (name, fn) :: post) loaded).fileChanged reloaded).Get
          toLower name
        = Value.map (copyAndInsensitiviseMap toLower (fn (loadConfig toLower pre loaded)))) ∧
    (fn (loadConfig toLower pre loaded) ≠ [] → ∀ defaultVal : List Value,
      internalGet toLower (loadConfig toLower (pre ++ (name, fn) :: post) loaded) name
          defaultVal
        = Value.map (copyAndInsensitiviseMap toLower (fn (loadConfig toLower pre loaded)))) := by
  have hov : searchMap (loadConfig toLower (pre ++ (name, fn) :: post) loaded).override
      (splitKey (lowerKey toLower name))
      = Value.map (copyAndInsensitiviseMap toLower (fn (loadConfig toLower pre loaded))) := by
    rw [loadConfig_append]
    have hstep : loadConfig toLower ((name, fn) :: post) (loadConfig toLower pre loaded)
        = loadConfig toLower post ((loadConfig toLower pre loaded).Set toLower name
            (Value.map (fn (loadConfig toLower pre loaded)))) := by
      simp [loadConfig]
    rw [hstep]
    exact override_after_loadConfig toLower hlower name _ post _ hpost
      (override_after_set toLower hlower (loadConfig toLower pre loaded) name _)
  have hfind : ∀ w : Viper,
      w.override = (loadConfig toLower (pre ++ (name, fn) :: post) loaded).override →
      w.find (lowerKey toLower name)
        = Value.map (copyAndInsensitiviseMap toLower (fn (loadConfig toLower pre loaded))) := by
    intro w hw
    exact find_of_override w _ _ (by rw [hw]; exact hov) rfl
  have hget := hfind _ rfl
  have hset : (loadConfig toLower (pre ++ (name, fn) :: post) loaded).IsSet toLower name
      = true := by
    simp only [Viper.IsSet, hget]
    rfl
  refine ⟨?_, hset, hget, ?_, ?_⟩
  · simp only [InitConfig, hload]
  · intro reloaded
    exact hfind _ rfl
  · intro hne defaultVal
    have hempty : helpers.Empty
        (Value.map (copyAndInsensitiviseMap toLower (fn (loadConfig toLower pre loaded))))
        = false := by
      simp only [helpers.Empty]
      rw [copyAndInsensitiviseMap_length]
      simpa using hne
    have hget2 : (loadConfig toLower (pre ++ (name, fn) :: post) loaded).Get toLower name
        = Value.map (copyAndInsensitiviseMap toLower (fn (loadConfig toLower pre loaded))) :=
      hget
    simp [internalGet, hset, hget2, hempty]

theorem section_wins_over_file_witness :
    (loadConfig asciiToLower
        [("APP", sectionOne), ("Database", sectionDatabase), ("log", sectionLog)]
        loadedFromFile).Get asciiToLower "database"
      = Value.map [("driver", Value.str "mysql")] ∧
    (loadConfig asciiToLower
        [("db", sectionDatabase), ("App", sectionOne), ("app.extra", sectionLog)]
        loadedFromFile).Get asciiToLower "app"
      = Value.map [("name", Value.str "one"),
          ("extra", Value.map [("level", Value.str "debug")])] ∧
    loadedFromFile.below "app" = Value.str "from-file" :=
  have h := section_wins_over_file asciiToLower asciiToLower_idem envFile ""
    (New noEnviron) loadedFromFile [("APP", sectionOne)] [("log", sectionLog)]
    "Database" sectionDatabase (by rfl)
    (by
      intro e he
      rw [List.mem_singleton] at he
      subst he
      exact ⟨by decide, by decide⟩)
  ⟨h.2.2.1.trans (by rfl), by rfl, by rfl⟩

end GoCommon.config

namespace GoCommon.helpers

theorem littleEndianBytes_length (n x : Nat) : (md5.littleEndianBytes n x).length = n := by
  induction n generalizing x with
  | zero => rfl
  | succ k ih => simp [md5.littleEndianBytes, ih]

/-- The digest always has sixteen bytes. -/
theorem md5_Sum_length (data : List Nat) : (md5.Sum data).length = 16 := by
  simp [md5.Sum, littleEndianBytes_length]

/-- The digest of "abc", as given in RFC 1321. -/
theorem md5_Sum_abc :
    md5.Sum (stringBytes "abc") =
      [0x90, 0x01, 0x50, 0x98, 0x3c, 0xd2, 0x4f, 0xb0,
       0xd6, 0x96, 0x3f, 0x7d, 0x28, 0xe1, 0x7f, 0x72] := by
  decide

/-- C10. `HashString` is a function of its input (equal strings give equal results), its
result lies in [0, 100), the empty string gives 0, and for a non-empty string the result is
the first four bytes of the MD5 digest of the string, read as a big-endian unsigned 32-bit
integer, modulo 100. -/
theorem HashString_spec (s t : String) :
    (s = t → HashString s = HashString t) ∧
    0 ≤ HashString s ∧ HashString s < 100 ∧
    HashString "" = 0 ∧
    (s ≠ "" →
      HashString s = Int.ofNat (bigEndianUint32 ((md5.Sum (stringBytes s)).take 4) % 100) ∧
      bigEndianUint32 ((md5.Sum (stringBytes s)).take 4) < 2 ^ 32) := by
  refine ⟨fun h => by rw [h], ?_, ?_, by rfl, ?_⟩
  · unfold HashString
    split
    · exact Int.le_refl 0
    · exact Int.ofNat_nonneg _
  · unfold HashString
    split
    · decide
    · have h : bigEndianUint32 (List.take 4 (md5.Sum (stringBytes s))) % 100 < 100 :=
        Nat.mod_lt _ (by decide)
      simp only [Int.ofNat_eq_coe]
      omega
  · intro hne
    refine ⟨?_, ?_⟩
    · unfold HashString
      rw [if_neg hne]
    · unfold bigEndianUint32
      omega

theorem HashString_spec_witness :
    HashString "a" = 77 ∧ HashString "a" < 100 :=
  have h := HashString_spec "a" "a"
  ⟨(h.2.2.2.2 (by decide)).1.trans (by decide), h.2.2.1⟩

end GoCommon.helpers
